import Mathlib

/-!
Verification of the document extraction subsystem of the Mapping repository
(`document_parser.py`) against its natural-language specification.

The extraction strategies are embedded shallowly:
* the PDF strategy is embedded from the point where `pdfplumbe`-extracted
  page text has been newline-joined (`full_text`); the byte-to-text step is
  the external black-box capability of spec section 4.2;
* the spreadsheet strategy is embedded over sheets given as raw cell grids
  (`List (List Cell)`), a cell being `Option String`: `none` models a cell
  the pandas reader reports as missing/NA (this includes blank cells and the
  reader's default NA conversion), `some s` models a cell whose stringified
  content is `s`;
* the CSV strategy is embedded over a header row of column names plus data
  rows of cells, with the same `Cell` convention;
* Python regular expressions are embedded as deterministic character-list
  scanners that reproduce the engine's leftmost, greedy, backtracking,
  non-overlapping `findall`/`match`/`search`/`split` behaviour on the
  pattern in question (each scanner's doc comment names its pattern).
Character classes are modelled at ASCII fidelity (the identifier
vocabularies are ASCII).
-/

/-- Python `\s` (ASCII whitespace as stripped by `str.strip`/matched by `\s`). -/
def isPySpace (c : Char) : Bool :=
  c = ' ' || c = '\t' || c = '\n' || c = '\r' || c = '\x0b' || c = '\x0c'

/-- `[A-Z]`. -/
def isUpperAZ (c : Char) : Bool := 'A' ≤ c && c ≤ 'Z'

/-- Python `\w` at ASCII fidelity: letters, digits, underscore. -/
def isWordChar (c : Char) : Bool := c.isAlpha || c.isDigit || c = '_'

/-- `pat` occurs at the very start of `l`. -/
def leadsWith : List Char → List Char → Bool
  | [], _ => true
  | _ :: _, [] => false
  | p :: ps, c :: cs => p = c && leadsWith ps cs

/-- `pat` occurs somewhere in `l` (Python `in` on strings). -/
def hasSub (pat : List Char) : List Char → Bool
  | [] => leadsWith pat []
  | l@(_ :: cs) => leadsWith pat l || hasSub pat cs

/-- Python `in` on strings: `strContains s pat` is `pat in s`. -/
def strContains (s pat : String) : Bool := hasSub pat.toList s.toList

/-- Python `str.strip()`: drop leading and trailing whitespace. -/
def pyStripL (l : List Char) : List Char :=
  ((l.dropWhile isPySpace).reverse.dropWhile isPySpace).reverse

/-- Python `str.strip()` on `String`. -/
def pyStrip (s : String) : String := String.mk (pyStripL s.toList)

/-- Python `str.lower()` at ASCII fidelity. -/
def pyLower (s : String) : String := String.mk (s.toList.map Char.toLower)

/-- Python `str.upper()` at ASCII fidelity. -/
def pyUpper (s : String) : String := String.mk (s.toList.map Char.toUpper)

/-- Python `str.startswith`. -/
def pyStartsWith (s pat : String) : Bool := leadsWith pat.toList s.toList

/-- Python `str.endswith`. -/
def pyEndsWith (s pat : String) : Bool := leadsWith pat.toList.reverse s.toList.reverse

/-- Python `str.split(sep)` for a one-character separator (keeps empty pieces). -/
def splitOnChar (sep : Char) (l : List Char) : List String :=
  let step := fun (c : Char) (acc : List Char × List String) =>
    if c = sep then ([], String.mk acc.1 :: acc.2) else (c :: acc.1, acc.2)
  let r := l.foldr step ([], [])
  String.mk r.1 :: r.2

/-- Split a text into its lines, as Python `text.split("\n")`. -/
def pySplitLines (s : String) : List String := splitOnChar '\n' s.toList

/-- `re.match(r"([A-Z]+)", s)`: the leading run of capital letters, `""` when
the pattern does not match (mirrors `cat.group(1) if cat else ""`). -/
def leadingUpper (s : String) : String := String.mk (s.toList.takeWhile isUpperAZ)

/-- One catalog entry discovered during extraction.  `description := none`
models a Python dict built without a `"description"` key. -/
structure Control where
  control_id : String
  title : String
  description : Option String
  category : String
deriving DecidableEq

/-- One discovered correspondence, directional in discovery order. -/
structure Mapping where
  source : String
  target : String
deriving DecidableEq

/-- The uniform result record.  `rawText`/`error` are `none` when the Python
dict was built without the corresponding key. -/
structure ParseResult where
  success : Bool
  controls : List Control
  mappings : List Mapping
  rawText : Option String
  error : Option String
deriving DecidableEq

/-- A spreadsheet / CSV cell as delivered by the pandas reader: `none` is a
missing/NA cell, `some s` a cell with stringified content `s`. -/
def Cell : Type := Option String
deriving instance DecidableEq for Cell

/-- Key lists without a repeated entry (executable no-duplicate check). -/
def nodupKeys : List String → Bool
  | [] => true
  | x :: xs => !(xs.contains x) && nodupKeys xs

/-- Pair lists without a repeated entry (executable no-duplicate check). -/
def nodupPairs : List (String × String) → Bool
  | [] => true
  | x :: xs => !(xs.contains x) && nodupPairs xs

-- ---------------------------------------------------------------------------
-- CSV strategy (`parse_csv`)
-- ---------------------------------------------------------------------------

/-- The input of `parse_csv` as delivered by `pd.read_csv`: the header row's
column names and the data rows. -/
structure CsvTable where
  columns : List String
  rows : List (List Cell)

/-- Is `col.upper()` a source-column name (`"ISO"`, `"27001"`, `"SOURCE"`)? -/
def csvSourceKeyword (col : String) : Bool :=
  strContains (pyUpper col) "ISO" || strContains (pyUpper col) "27001" ||
    strContains (pyUpper col) "SOURCE"

/-- Is `col.upper()` a target-column name (`"BSI"`, `"C5"`, `"TARGET"`)? -/
def csvTargetKeyword (col : String) : Bool :=
  strContains (pyUpper col) "BSI" || strContains (pyUpper col) "C5" ||
    strContains (pyUpper col) "TARGET"

/-- The column-selection loop of `parse_csv` (source lines 392-397): columns
are identified by position; `iso_col`/`target_col` are overwritten on every
keyword hit, the target branch being the `elif`. -/
def csvDetectCols (columns : List String) : Option Nat × Option Nat :=
  columns.enum.foldl
    (fun (acc : Option Nat × Option Nat) ic =>
      if csvSourceKeyword ic.2 then (some ic.1, acc.2)
      else if csvTargetKeyword ic.2 then (acc.1, some ic.1)
      else acc)
    (none, none)

/-- `str(row[col]).strip() if pd.notna(row[col]) else ""`. -/
def csvCellStr (row : List Cell) (i : Nat) : String :=
  match row.getD i none with
  | some s => pyStrip s
  | none => ""

/-- The body of the `parse_csv` row loop (source lines 400-411): emit the
mapping unconditionally, then register a control for the target value if it
is not present yet. -/
def csvRowStep (ic tc : Nat) (acc : List Control × List Mapping)
    (row : List Cell) : List Control × List Mapping :=
  let isoVal := csvCellStr row ic
  let targetVal := csvCellStr row tc
  if isoVal ≠ "" ∧ targetVal ≠ "" ∧ isoVal ≠ "nan" ∧ targetVal ≠ "nan" then
    let ms := acc.2 ++ [{ source := isoVal, target := targetVal }]
    let cs :=
      if acc.1.any (fun c => c.control_id = targetVal) then acc.1
      else acc.1 ++ [{ control_id := targetVal, title := "Control " ++ targetVal,
                       description := none, category := "" }]
    (cs, ms)
  else acc

/-- Python `repr` of the column-name list, as interpolated into `raw_text`. -/
def csvColsRepr (columns : List String) : String :=
  "[" ++ String.intercalate ", " (columns.map (fun c => "'" ++ c ++ "'")) ++ "]"

/-- `parse_csv` (source lines 383-418), embedded over the table delivered by
`pd.read_csv`. -/
def parse_csv (t : CsvTable) : ParseResult :=
  let cols := csvDetectCols t.columns
  let cm :=
    match cols.1, cols.2 with
    | some ic, some tc => t.rows.foldl (csvRowStep ic tc) ([], [])
    | _, _ => ([], [])
  { success := true, controls := cm.1, mappings := cm.2,
    rawText := some ("Parsed " ++ toString t.rows.length ++ " rows, columns: " ++
      csvColsRepr t.columns),
    error := none }

-- ---------------------------------------------------------------------------
-- Regex scanners shared by the spreadsheet and PDF strategies
-- ---------------------------------------------------------------------------

/-- One step of a `findall` scan for a pattern without word-boundary anchors:
try the matcher at each position, emit the match and resume after it
(Python's leftmost non-overlapping scan).  `fuel` bounds recursion; it is
instantiated with the input length, which the per-step consumption of at
least one character makes sufficient. -/
def scanNB (matcher : List Char → Option (List Char × List Char)) :
    Nat → List Char → List (List Char)
  | 0, _ => []
  | _ + 1, [] => []
  | fuel + 1, c :: rest =>
    match matcher (c :: rest) with
    | some (m, after) => m :: scanNB matcher fuel after
    | none => scanNB matcher fuel rest

/-- `findall` scan for a pattern of the form `\b...\b` whose matches start
with a word character and end with a word character: a match may only start
where the previous character is not a word character, and scanning resumes
right after a match with the boundary state of its last character. -/
def scanWB (matcher : List Char → Option (List Char × List Char)) :
    Nat → List Char → Bool → List (List Char)
  | 0, _, _ => []
  | _ + 1, [], _ => []
  | fuel + 1, c :: rest, prevWord =>
    if prevWord then scanWB matcher fuel rest (isWordChar c)
    else
      match matcher (c :: rest) with
      | some (m, after) => m :: scanWB matcher fuel after true
      | none => scanWB matcher fuel rest (isWordChar c)

/-- Matcher for `A\.\d+\.\d+` at the current position (greedy `\d+` runs;
shorter runs cannot satisfy the following literal, so the maximal runs are
the only viable choice). -/
def isoAnnexMatchAt (l : List Char) : Option (List Char × List Char) :=
  match l with
  | 'A' :: '.' :: rest =>
    let d1 := rest.takeWhile Char.isDigit
    if d1 = [] then none
    else
      match rest.drop d1.length with
      | '.' :: rest2 =>
        let d2 := rest2.takeWhile Char.isDigit
        if d2 = [] then none
        else some ('A' :: '.' :: d1 ++ '.' :: d2, rest2.drop d2.length)
      | _ => none
  | _ => none

/-- `re.findall(r"(A\.\d+\.\d+)", s)`. -/
def isoAnnexFindall (s : String) : List String :=
  (scanNB isoAnnexMatchAt (s.toList.length + 1) s.toList).map String.mk

/-- Matcher for `\d+\.\d+` at the current position. -/
def isoClauseMatchAt (l : List Char) : Option (List Char × List Char) :=
  let d1 := l.takeWhile Char.isDigit
  if d1 = [] then none
  else
    match l.drop d1.length with
    | '.' :: rest2 =>
      let d2 := rest2.takeWhile Char.isDigit
      if d2 = [] then none
      else some (d1 ++ '.' :: d2, rest2.drop d2.length)
    | _ => none

/-- `re.findall(r"(\d+\.\d+)", s)`. -/
def isoClauseFindall (s : String) : List String :=
  (scanNB isoClauseMatchAt (s.toList.length + 1) s.toList).map String.mk

-- ---------------------------------------------------------------------------
-- Spreadsheet strategy (`parse_excel` and helpers)
-- ---------------------------------------------------------------------------

/-- `_extract_iso_refs` (source lines 204-223): sentinel guard, then Annex
matches, then clause matches each appended only when not already present and
not a substring of an already-accepted reference (the accepted list grows as
the loop runs, exactly as the Python list does). -/
def extract_iso_refs (raw : String) : List String :=
  if raw = "" ∨ pyStrip raw = "-" ∨ pyStrip raw = "n/a" ∨ pyStrip raw = "nan" ∨
      pyStrip raw = "" then []
  else
    (isoClauseFindall raw).foldl
      (fun refs c =>
        if c ∉ refs ∧ ¬ refs.any (fun r => strContains r c) then refs ++ [c]
        else refs)
      (isoAnnexFindall raw)

/-- `re.match` of `_C5_REF_PATTERN = ([A-Z]{2,4})-(\d{2})` (anchored at the
start, not at the end): group 1, the leading letter run.  Only the maximal
letter run can be followed by `-`, so greediness resolves deterministically. -/
def c5RefMatch (s : String) : Option String :=
  let l := s.toList
  let letters := l.takeWhile isUpperAZ
  if 2 ≤ letters.length ∧ letters.length ≤ 4 then
    match l.drop letters.length with
    | '-' :: d1 :: d2 :: _ =>
      if d1.isDigit ∧ d2.isDigit then some (String.mk letters) else none
    | _ => none
  else none

/-- The fixed header keyword set of `_find_header_row`. -/
def headerKeywords : List String := ["ref", "title", "criteria", "description"]

/-- The per-row score of `_find_header_row` (source line 336): the number of
(cell, keyword) pairs such that the keyword occurs in the non-NA cell's
stripped, lower-cased text — a cell holding two keywords counts twice. -/
def rowScore (row : List Cell) : Nat :=
  ((row.filterMap id).map (fun s => pyLower (pyStrip s))).foldl
    (fun n v => n + (headerKeywords.filter (fun kw => strContains v kw)).length) 0

/-- The scan state of `_find_header_row`: best row index and best score. -/
def headerScanStep (raw : List (List Cell)) (acc : Option Nat × Nat) (i : Nat) :
    Option Nat × Nat :=
  let score := rowScore (raw.getD i [])
  if acc.2 < score then (some i, score) else acc

/-- `_find_header_row` (source lines 329-340): scan the first
`min 5 (number of rows)` rows, keep the first row attaining the maximal
score, and answer only when that score is at least 2. -/
def find_header_row (raw : List (List Cell)) : Option Nat :=
  let best := (List.range (min 5 raw.length)).foldl (headerScanStep raw) (none, 0)
  if 2 ≤ best.2 then best.1 else none

/-- The column name pandas gives the header cell at index `idx` (`"Unnamed: k"`
for an NA header cell), stringified and stripped as in source line 255. -/
def colNameAt (idx : Nat) (c : Cell) : String :=
  match c with
  | some s => pyStrip s
  | none => "Unnamed: " ++ toString idx

/-- The column-name deduplication loop (source lines 252-262): a repeated
name gets `_N` appended with a per-name counter kept in a dictionary. -/
def dedupColsGo : List (String × Nat) → List String → List String → List String
  | _, acc, [] => acc.reverse
  | seen, acc, n :: rest =>
    match seen.lookup n with
    | some k => dedupColsGo ((n, k + 1) :: seen) ((n ++ "_" ++ toString (k + 1)) :: acc) rest
    | none => dedupColsGo ((n, 0) :: seen) (n :: acc) rest

/-- Deduplicate column names as `parse_excel` does. -/
def dedupCols (names : List String) : List String := dedupColsGo [] [] names

/-- The semantic column roles found by `_detect_columns`, as positions into
the deduplicated column-name list (names are unique after deduplication, so
label access and positional access agree). -/
structure ColMap where
  ref : Nat
  title : Option Nat
  description : Option Nat
  iso : Nat
deriving DecidableEq

/-- The running dictionary of the `_detect_columns` loop. -/
structure DetectAcc where
  ref : Option Nat
  title : Option Nat
  description : Option Nat
  iso : Option Nat
  refCount : Nat

/-- One column of the `_detect_columns` loop (source lines 348-362):
`setdefault` keeps the first assignment of each role; a second `"ref"`-like
column is inferred to be the ISO reference column. -/
def detectStep (acc : DetectAcc) (ic : Nat × String) : DetectAcc :=
  let low := pyLower ic.2
  if strContains low "ref" ∧ ¬ strContains low "iso" then
    if acc.refCount = 0 then
      { acc with ref := acc.ref.getD ic.1 |> some, refCount := acc.refCount + 1 }
    else
      { acc with iso := acc.iso.getD ic.1 |> some, refCount := acc.refCount + 1 }
  else if strContains low "title" then { acc with title := acc.title.getD ic.1 |> some }
  else if strContains low "criteria" ∨ strContains low "description" ∨
      strContains low "basic" then
    { acc with description := acc.description.getD ic.1 |> some }
  else if strContains low "iso" ∨ strContains low "27001" then
    { acc with iso := acc.iso.getD ic.1 |> some }
  else acc

/-- `_detect_columns` (source lines 343-376): keyword pass, then the
positional fallback when the sheet has at least 4 columns. -/
def detect_columns (columns : List String) : Option ColMap :=
  let acc := columns.enum.foldl detectStep ⟨none, none, none, none, 0⟩
  match acc.ref, acc.iso with
  | some r, some i => some ⟨r, acc.title, acc.description, i⟩
  | _, _ =>
    if 4 ≤ columns.length then some ⟨0, some 1, some 2, 3⟩ else none

/-- `_safe_str` (source lines 315-326): `""` for an absent column or NA cell,
otherwise the stripped cell text. -/
def safe_str (row : List Cell) (col : Option Nat) : String :=
  match col with
  | none => ""
  | some i =>
    match row.getD i none with
    | some s => pyStrip s
    | none => ""

/-- The accumulating state of `parse_excel`: the control and mapping lists
and the mapping dedup set, shared across all sheets of one call. -/
structure ExcelState where
  controls : List Control
  mappings : List Mapping
  seenMappings : List (String × String)

/-- The body of the `parse_excel` row loop (source lines 273-305). -/
def excelRowStep (docType : String) (cm : ColMap) (st : ExcelState)
    (row : List Cell) : ExcelState :=
  let refVal := safe_str row (some cm.ref)
  let isoVal := safe_str row (some cm.iso)
  let titleVal := match cm.title with | some t => safe_str row (some t) | none => ""
  let descVal := match cm.description with | some d => safe_str row (some d) | none => ""
  if refVal = "" ∨ refVal = "nan" then st
  else
    let category :=
      if strContains docType "C5" ∨ (c5RefMatch refVal).isSome then
        (c5RefMatch refVal).getD ""
      else leadingUpper refVal
    let st :=
      if st.controls.any (fun c => c.control_id = refVal) then st
      else { st with controls := st.controls ++
              [{ control_id := refVal,
                 title := if titleVal = "" then "Control " ++ refVal else titleVal,
                 description := some descVal, category := category }] }
    (extract_iso_refs isoVal).foldl
      (fun st isoRef =>
        if (isoRef, refVal) ∈ st.seenMappings then st
        else { st with
               seenMappings := (isoRef, refVal) :: st.seenMappings,
               mappings := st.mappings ++ [{ source := isoRef, target := refVal }] })
      st

/-- One sheet as delivered by `pd.read_excel(..., header=None)`: its name and
the raw cell grid. -/
structure Sheet where
  name : String
  raw : List (List Cell)

/-- `df_raw.empty or len(df_raw) < 3` (source line 243): no rows, no columns,
or fewer than 3 rows. -/
def dfRawTooSmall (raw : List (List Cell)) : Bool :=
  raw.length < 3 || raw.all List.isEmpty

/-- The per-sheet body of `parse_excel` (source lines 241-305): size guard,
header discovery, re-read with that header (columns from the header row,
data from the rows after it), column-name deduplication, role inference,
then the row loop. -/
def excelSheetStep (docType : String) (st : ExcelState) (sheet : Sheet) : ExcelState :=
  if dfRawTooSmall sheet.raw then st
  else
    match find_header_row sheet.raw with
    | none => st
    | some h =>
      let cols := dedupCols ((sheet.raw.getD h []).enum.map (fun ic => colNameAt ic.1 ic.2))
      match detect_columns cols with
      | none => st
      | some cm => (sheet.raw.drop (h + 1)).foldl (excelRowStep docType cm) st

/-- `parse_excel` (source lines 226-312): sheet selection by name hint with
fallback to every sheet, then the per-sheet scan. -/
def parse_excel (sheets : List Sheet) (docType : String) : ParseResult :=
  let targets := sheets.filter
    (fun s => strContains (pyLower s.name) "map" || strContains (pyLower s.name) "reference")
  let targets := if targets.isEmpty then sheets else targets
  let st := targets.foldl (excelSheetStep docType) ⟨[], [], []⟩
  { success := true, controls := st.controls, mappings := st.mappings,
    rawText := some ("Parsed " ++ toString sheets.length ++ " sheets, " ++
      toString st.controls.length ++ " controls, " ++
      toString st.mappings.length ++ " mappings"),
    error := none }

-- ---------------------------------------------------------------------------
-- PDF strategy: identifier grammar
-- ---------------------------------------------------------------------------

/-- `rest` sits at a `\b` after a word character: the next character must not
be a word character (or the input must end). -/
def boundaryAfter : List Char → Bool
  | [] => true
  | c :: _ => ¬ isWordChar c

/-- Matcher for `_BSI_MODULE_PATTERN = \b([A-Z]{2,5}\.\d+(?:\.\d+)?)\b` at a
position already known to sit at a word boundary.  Backtracking resolves
deterministically: only the maximal letter run can be followed by `.`, the
digit runs are maximal, and when the greedy optional `\.\d+` group breaks the
trailing `\b` the engine retries without the group (the character after the
first digit run is then `.`, a non-word character, so that retry succeeds). -/
def moduleMatchAt (l : List Char) : Option (List Char × List Char) :=
  let letters := l.takeWhile isUpperAZ
  if 2 ≤ letters.length ∧ letters.length ≤ 5 then
    match l.drop letters.length with
    | '.' :: rest1 =>
      let d1 := rest1.takeWhile Char.isDigit
      if d1 = [] then none
      else
        let rest2 := rest1.drop d1.length
        let opt :=
          match rest2 with
          | '.' :: rest2a =>
            let d2 := rest2a.takeWhile Char.isDigit
            if d2 = [] then none else some ('.' :: d2, rest2a.drop d2.length)
          | _ => none
        match opt with
        | some (optPart, rest3) =>
          if boundaryAfter rest3 then some (letters ++ '.' :: d1 ++ optPart, rest3)
          else if boundaryAfter rest2 then some (letters ++ '.' :: d1, rest2)
          else none
        | none =>
          if boundaryAfter rest2 then some (letters ++ '.' :: d1, rest2) else none
    | _ => none
  else none

/-- The `\.A\d+\b` tail of `_BSI_REQ_PATTERN`. -/
def reqTailAt (rest : List Char) : Option (List Char × List Char) :=
  match rest with
  | '.' :: 'A' :: rest4 =>
    let d3 := rest4.takeWhile Char.isDigit
    if d3 = [] then none
    else
      let rest5 := rest4.drop d3.length
      if boundaryAfter rest5 then some ('.' :: 'A' :: d3, rest5) else none
  | _ => none

/-- Matcher for `_BSI_REQ_PATTERN = \b([A-Z]{2,5}\.\d+(?:\.\d+)?\.A\d+)\b` at
a position already known to sit at a word boundary; greedy optional group
with the retry-without-it fallback (which can never succeed after the group
matched, since the tail would then start at `.` followed by a digit, but it
mirrors the engine). -/
def reqMatchAt (l : List Char) : Option (List Char × List Char) :=
  let letters := l.takeWhile isUpperAZ
  if 2 ≤ letters.length ∧ letters.length ≤ 5 then
    match l.drop letters.length with
    | '.' :: rest1 =>
      let d1 := rest1.takeWhile Char.isDigit
      if d1 = [] then none
      else
        let rest2 := rest1.drop d1.length
        let opt :=
          match rest2 with
          | '.' :: rest2a =>
            let d2 := rest2a.takeWhile Char.isDigit
            if d2 = [] then none else some ('.' :: d2, rest2a.drop d2.length)
          | _ => none
        match opt with
        | some (optPart, rest3) =>
          match reqTailAt rest3 with
          | some (tail, rest4) => some (letters ++ '.' :: d1 ++ optPart ++ tail, rest4)
          | none =>
            match reqTailAt rest2 with
            | some (tail, rest4) => some (letters ++ '.' :: d1 ++ tail, rest4)
            | none => none
        | none =>
          match reqTailAt rest2 with
          | some (tail, rest4) => some (letters ++ '.' :: d1 ++ tail, rest4)
          | none => none
    | _ => none
  else none

/-- `_BSI_REQ_PATTERN.findall`. -/
def reqFindall (s : String) : List String :=
  (scanWB reqMatchAt (s.toList.length + 1) s.toList false).map String.mk

/-- `_BSI_MODULE_PATTERN.findall`. -/
def moduleFindall (s : String) : List String :=
  (scanWB moduleMatchAt (s.toList.length + 1) s.toList false).map String.mk

/-- Matcher for `_BSI_STD_PATTERN = (BSI-Standard\s+200-[1-4])`: the literal
prefix, a maximal whitespace run (only it can be followed by `2`), the
literal `200-`, one digit `1`-`4`. -/
def stdMatchAt (l : List Char) : Option (List Char × List Char) :=
  if leadsWith "BSI-Standard".toList l then
    let rest := l.drop 12
    let ws := rest.takeWhile isPySpace
    if ws = [] then none
    else
      let rest2 := rest.drop ws.length
      if leadsWith "200-".toList rest2 then
        match rest2.drop 4 with
        | c :: rest3 =>
          if c = '1' ∨ c = '2' ∨ c = '3' ∨ c = '4' then
            some ("BSI-Standard".toList ++ ws ++ ['2', '0', '0', '-', c], rest3)
          else none
        | [] => none
      else none
  else none

/-- `_BSI_STD_PATTERN.findall`. -/
def stdFindall (s : String) : List String :=
  (scanNB stdMatchAt (s.toList.length + 1) s.toList).map String.mk

/-- `re.search(r"200-([1-4])", raw)`: the first captured digit. -/
def search200 : Nat → List Char → Option Char
  | 0, _ => none
  | _ + 1, [] => none
  | fuel + 1, l@(_ :: rest) =>
    if leadsWith "200-".toList l then
      match l.drop 4 with
      | c :: _ =>
        if c = '1' ∨ c = '2' ∨ c = '3' ∨ c = '4' then some c else search200 fuel rest
      | [] => search200 fuel rest
    else search200 fuel rest

/-- `re.search(r"Elementare\s+Gef", block)` as a Boolean: somewhere in the
block, the literal `Elementare`, a whitespace run, then `Gef`. -/
def elemGefAt (l : List Char) : Bool :=
  if leadsWith "Elementare".toList l then
    let rest := l.drop 10
    let ws := rest.takeWhile isPySpace
    ws ≠ [] && leadsWith "Gef".toList (rest.drop ws.length)
  else false

/-- Scan for `Elementare\s+Gef` anywhere. -/
def elemGefSearch : Nat → List Char → Bool
  | 0, _ => false
  | _ + 1, [] => false
  | fuel + 1, l@(_ :: rest) => elemGefAt l || elemGefSearch fuel rest

/-- Matcher for the splitting pattern `A\.\d+\.\d+\s` of pass 2 (no word
boundaries; one trailing whitespace character). -/
def annexSepMatchAt (l : List Char) : Option (List Char × List Char) :=
  match l with
  | 'A' :: '.' :: rest =>
    let d1 := rest.takeWhile Char.isDigit
    if d1 = [] then none
    else
      match rest.drop d1.length with
      | '.' :: rest2 =>
        let d2 := rest2.takeWhile Char.isDigit
        if d2 = [] then none
        else
          match rest2.drop d2.length with
          | w :: rest3 =>
            if isPySpace w then some ('A' :: '.' :: d1 ++ '.' :: d2 ++ [w], rest3)
            else none
          | [] => none
      | _ => none
  | _ => none

/-- `re.split` with a capturing group: alternating segments and separator
matches, leading/trailing segments kept even when empty. -/
def splitScan (matcher : List Char → Option (List Char × List Char)) :
    Nat → List Char → List Char → List String
  | 0, accRev, l => [String.mk (accRev.reverse ++ l)]
  | _ + 1, accRev, [] => [String.mk accRev.reverse]
  | fuel + 1, accRev, c :: rest =>
    match matcher (c :: rest) with
    | some (m, after) =>
      String.mk accRev.reverse :: String.mk m :: splitScan matcher fuel [] after
    | none => splitScan matcher fuel (c :: accRev) rest

/-- `re.split(r"(A\.\d+\.\d+\s)", full_text)` (source line 152). -/
def annexSplit (s : String) : List String :=
  splitScan annexSepMatchAt (s.toList.length + 1) [] s.toList

/-- `re.match(r"A\.(\d+)\.(\d+)\s*$", section.strip())` (source line 155):
after stripping, the text must be exactly `A.<digits>.<digits>` (the trailing
`\s*` can only match the empty string on stripped text); the rebuilt
`A.{g1}.{g2}` identifier is returned. -/
def stripExactAnnex (s : String) : Option String :=
  match s.toList with
  | 'A' :: '.' :: rest =>
    let d1 := rest.takeWhile Char.isDigit
    if d1 = [] then none
    else
      match rest.drop d1.length with
      | '.' :: rest2 =>
        let d2 := rest2.takeWhile Char.isDigit
        if d2 = [] then none
        else if rest2.drop d2.length = [] then
          some (String.mk ('A' :: '.' :: d1 ++ '.' :: d2))
        else none
      | _ => none
  | _ => none

/-- `re.match(r"^A\.(\d+)\.(\d+)\s+(.+)", line)` (source line 178): the
`A.{g1}.{g2}` identifier and group 3.  Greedy `\s+` hands back one character
to `(.+)` when the line ends in whitespace and the run is at least 2 long;
a line with nothing after the single whitespace character does not match. -/
def isoStartMatch (line : String) : Option (String × String) :=
  match line.toList with
  | 'A' :: '.' :: rest =>
    let d1 := rest.takeWhile Char.isDigit
    if d1 = [] then none
    else
      match rest.drop d1.length with
      | '.' :: rest2 =>
        let d2 := rest2.takeWhile Char.isDigit
        if d2 = [] then none
        else
          let w := rest2.drop d2.length
          let k := (w.takeWhile isPySpace).length
          let iso := String.mk ('A' :: '.' :: d1 ++ '.' :: d2)
          if k = 0 then none
          else if k < w.length then some (iso, String.mk (w.drop k))
          else if 2 ≤ k then some (iso, String.mk (w.drop (k - 1)))
          else none
      | _ => none
  | _ => none

/-- The `(?:\.\d+)*` tail of `_CLAUSE_START`: consume `.`-separated digit
groups as long as they come (fuel-bounded; the fuel is the remaining input
length, enough because every round consumes at least two characters). -/
def dottedRun : Nat → List Char → List Char → List Char × List Char
  | 0, acc, rest => (acc, rest)
  | fuel + 1, acc, rest =>
    match rest with
    | '.' :: rest2 =>
      let d := rest2.takeWhile Char.isDigit
      if d = [] then (acc, rest)
      else dottedRun fuel (acc ++ '.' :: d) (rest2.drop d.length)
    | _ => (acc, rest)

/-- `_CLAUSE_START.match(stripped)` = `^(\d+(?:\.\d+)*)\s+[A-Z]` (source
line 44): the captured dotted number.  Backtracking into a shorter dotted
run can never succeed (the follow-up character would be `.`), so only the
maximal run is tried, followed by a maximal whitespace run whose follow-up
character must be a capital letter. -/
def clauseStartMatch (stripped : String) : Option String :=
  let l := stripped.toList
  let d0 := l.takeWhile Char.isDigit
  if d0 = [] then none
  else
    let r := dottedRun l.length d0 (l.drop d0.length)
    let ws := r.2.takeWhile isPySpace
    if ws = [] then none
    else
      match r.2.drop ws.length with
      | c :: _ => if isUpperAZ c then some (String.mk r.1) else none
      | [] => none

/-- `re.match(r"^\d+\.\d+", clause_num)` (source line 143) as a Boolean. -/
def clauseNumIsSub (s : String) : Bool :=
  let l := s.toList
  let d0 := l.takeWhile Char.isDigit
  if d0 = [] then false
  else
    match l.drop d0.length with
    | '.' :: c :: _ => c.isDigit
    | _ => false

-- ---------------------------------------------------------------------------
-- PDF strategy: `parse_bsi_zuordnung_pdf`
-- ---------------------------------------------------------------------------

/-- The per-call accumulators of `parse_bsi_zuordnung_pdf`: the control and
mapping lists and the two dedup sets (modelled as membership lists). -/
structure PdfState where
  controls : List Control
  mappings : List Mapping
  seenBsi : List String
  seenMappings : List (String × String)

/-- The fixed `_BSI_STD_TITLES` table, in dict insertion order. -/
def bsiStdTitles : List (String × String) :=
  [("BSI-Std-200-1",
    "BSI-Standard 200-1: Managementsysteme fuer Informationssicherheit (ISMS)"),
   ("BSI-Std-200-2", "BSI-Standard 200-2: IT-Grundschutz-Methodik"),
   ("BSI-Std-200-3",
    "BSI-Standard 200-3: Risikoanalyse auf der Basis von IT-Grundschutz"),
   ("BSI-Std-200-4", "BSI-Standard 200-4: Business Continuity Management"),
   ("BSI-ElemGef", "Elementare Gefaehrdungen (G0) des IT-Grundschutz-Kompendiums")]

/-- `_BSI_STD_TITLES.get(std_id, std_id)`. -/
def stdTitleOf (stdId : String) : String :=
  match bsiStdTitles.lookup stdId with
  | some t => t
  | none => stdId

/-- `_add_bsi` (source lines 75-89): register a control for the BSI id if
unseen (empty title/category fall back to `BSI <id>` and the leading letter
run), then emit the `(iso, bsi)` mapping if its pair is unseen. -/
def add_bsi (st : PdfState) (bsiCtrl isoCtrl title category : String) : PdfState :=
  let st :=
    if bsiCtrl ∈ st.seenBsi then st
    else
      { st with
        seenBsi := bsiCtrl :: st.seenBsi,
        controls := st.controls ++
          [{ control_id := bsiCtrl,
             title := if title = "" then "BSI " ++ bsiCtrl else title,
             description := none,
             category := if category = "" then leadingUpper bsiCtrl else category }] }
  if (isoCtrl, bsiCtrl) ∈ st.seenMappings then st
  else
    { st with
      seenMappings := (isoCtrl, bsiCtrl) :: st.seenMappings,
      mappings := st.mappings ++ [{ source := isoCtrl, target := bsiCtrl }] }

/-- `_extract_std_refs` (source lines 91-104): the `BSI-Std-200-<n>` ids of
the standard-reference matches in order without repetition, plus
`BSI-ElemGef` when the elementary-threat phrase occurs. -/
def extract_std_refs (block : String) : List String :=
  let refs := (stdFindall block).foldl
    (fun refs m =>
      match search200 (m.toList.length + 1) m.toList with
      | some d =>
        let cid := "BSI-Std-200-" ++ String.mk [d]
        if cid ∈ refs then refs else refs ++ [cid]
      | none => refs)
    []
  if elemGefSearch (block.toList.length + 1) block.toList then
    if "BSI-ElemGef" ∈ refs then refs else refs ++ ["BSI-ElemGef"]
  else refs

/-- The pre-seed pass (source lines 107-114): register every
`_BSI_STD_TITLES` entry as a control. -/
def preSeed (st : PdfState) : PdfState :=
  bsiStdTitles.foldl
    (fun st ct =>
      if ct.1 ∈ st.seenBsi then st
      else
        { st with
          seenBsi := ct.1 :: st.seenBsi,
          controls := st.controls ++
            [{ control_id := ct.1, title := ct.2, description := none,
               category := "BSI-Standard" }] })
    st

/-- `_flush_clause` (source lines 121-128): when a clause cursor and a
non-empty buffer are pending, map every standard reference of the joined
buffer to the clause. -/
def flushClause (cur : Option String) (buf : List String) (st : PdfState) : PdfState :=
  match cur with
  | none => st
  | some clause =>
    if buf.isEmpty then st
    else
      (extract_std_refs (String.intercalate " " buf)).foldl
        (fun st stdId => add_bsi st stdId clause (stdTitleOf stdId) "BSI-Standard")
        st

/-- The clause-pass line loop (source lines 130-149), including the final
flush after the loop.  A line whose stripped text starts with `A.` flushes
and breaks; a clause-header line flushes, moves the cursor only for true
sub-clauses, and restarts the buffer; other lines accumulate only under a
live cursor. -/
def clauseLoop (st : PdfState) (cur : Option String) (buf : List String) :
    List String → PdfState
  | [] => flushClause cur buf st
  | line :: rest =>
    let stripped := pyStrip line
    if stripped = "" then clauseLoop st cur buf rest
    else if pyStartsWith stripped "A." then flushClause cur buf st
    else
      match clauseStartMatch stripped with
      | some num =>
        let st := flushClause cur buf st
        let cur := if clauseNumIsSub num then some num else cur
        clauseLoop st cur [stripped] rest
      | none =>
        if cur.isSome then clauseLoop st cur (buf ++ [stripped]) rest
        else clauseLoop st cur buf rest

/-- The body scan of the section-oriented Annex pass (source lines 159-173):
requirement matches become control plus mapping, module matches not yet seen
and without an `.A` infragment become control only, standard references
become control plus mapping. -/
def annexBody (st : PdfState) (cur : String) (sec : String) : PdfState :=
  let st := (reqFindall sec).foldl (fun st r => add_bsi st r cur "" "") st
  let st := (moduleFindall sec).foldl
    (fun st m =>
      if ¬ strContains m ".A" ∧ m ∉ st.seenBsi then
        { st with
          seenBsi := m :: st.seenBsi,
          controls := st.controls ++
            [{ control_id := m, title := "BSI Module " ++ m, description := none,
               category := leadingUpper m }] }
      else st)
    st
  (extract_std_refs sec).foldl
    (fun st stdId => add_bsi st stdId cur (stdTitleOf stdId) "BSI-Standard")
    st

/-- The section loop of the Annex pass (source lines 152-173) over the
pieces of `annexSplit`. -/
def annexLoop (st : PdfState) (cur : Option String) : List String → PdfState
  | [] => st
  | sec :: rest =>
    match stripExactAnnex (pyStrip sec) with
    | some iso => annexLoop st (some iso) rest
    | none =>
      match cur with
      | some c =>
        if pyStrip sec ≠ "" then annexLoop (annexBody st c sec) cur rest
        else annexLoop st cur rest
      | none => annexLoop st cur rest

/-- The line-oriented fallback pass (source lines 175-185). -/
def fallbackLoop (st : PdfState) (cur : Option String) : List String → PdfState
  | [] => st
  | line :: rest =>
    match isoStartMatch line with
    | some (iso, g3) =>
      let st := (reqFindall g3).foldl (fun st r => add_bsi st r iso "" "") st
      fallbackLoop st (some iso) rest
    | none =>
      match cur with
      | some c =>
        let st := (reqFindall line).foldl (fun st r => add_bsi st r c "" "") st
        fallbackLoop st (some c) rest
      | none => fallbackLoop st cur rest

/-- Python `full_text[:10000]`. -/
def pyTake10000 (s : String) : String := String.mk (s.toList.take 10000)

/-- `parse_bsi_zuordnung_pdf` (source lines 55-192), embedded over the
newline-joined page text delivered by the external page-text capability. -/
def parse_bsi_zuordnung_pdf (fullText : String) : ParseResult :=
  let st : PdfState := ⟨[], [], [], []⟩
  let st := preSeed st
  let st := clauseLoop st none [] (pySplitLines fullText)
  let st := annexLoop st none (annexSplit fullText)
  let st := fallbackLoop st none (pySplitLines fullText)
  { success := true, controls := st.controls, mappings := st.mappings,
    rawText := some (pyTake10000 fullText), error := none }

-- ---------------------------------------------------------------------------
-- Dispatcher (`parse_uploaded_bytes`)
-- ---------------------------------------------------------------------------

/-- What invoking a strategy on the current input does: return a result or
raise an exception carrying a message. -/
def StrategyRun : Type := Except String ParseResult

/-- `parse_uploaded_bytes` (source lines 20-33), with the three strategy
invocations abstracted as their outcomes on the current input: lower-case
the filename, select a strategy by suffix, and convert a raised exception
into `{success: false, error: str(e), raw_text: ""}`; an unrecognized suffix
yields the failure result naming the (lower-cased) input. -/
def parse_uploaded_bytes (filename : String) (pdfRun excelRun csvRun : StrategyRun) :
    ParseResult :=
  let fn := pyLower filename
  let chosen : Option StrategyRun :=
    if pyEndsWith fn ".pdf" then some pdfRun
    else if pyEndsWith fn ".xlsx" || pyEndsWith fn ".xls" then some excelRun
    else if pyEndsWith fn ".csv" then some csvRun
    else none
  match chosen with
  | none =>
    { success := false, controls := [], mappings := [], rawText := none,
      error := some ("Unsupported file type: " ++ fn) }
  | some (Except.ok r) => r
  | some (Except.error e) =>
    { success := false, controls := [], mappings := [], rawText := some "",
      error := some e }

-- ---------------------------------------------------------------------------
-- Specification-side definitions and state invariants
-- ---------------------------------------------------------------------------

/-- The list of every mapping's `(source, target)` pair of a result. -/
def pairsOf (r : ParseResult) : List (String × String) :=
  r.mappings.map (fun m => (m.source, m.target))

/-- The list of `control_id`s of a result. -/
def idsOf (r : ParseResult) : List String := r.controls.map Control.control_id

/-- Every mapping's target has a control with the same `control_id` in the
same result (executable form of the registration invariant). -/
def registeredB (r : ParseResult) : Bool :=
  r.mappings.all (fun m => r.controls.any (fun c => c.control_id == m.target))

/-- The state invariant of `parse_bsi_zuordnung_pdf`: control ids are
duplicate-free and tracked exactly by `seen_bsi`, mapping pairs are
duplicate-free and tracked exactly by `seen_mappings`, every mapping target
is a seen BSI id, and no control carries a description. -/
def pdfInv (st : PdfState) : Prop :=
  (st.controls.map Control.control_id).Nodup ∧
  (∀ cid, cid ∈ st.seenBsi ↔ cid ∈ st.controls.map Control.control_id) ∧
  (st.mappings.map (fun m => (m.source, m.target))).Nodup ∧
  (∀ p, p ∈ st.seenMappings ↔ p ∈ st.mappings.map (fun m => (m.source, m.target))) ∧
  (∀ m ∈ st.mappings, m.target ∈ st.seenBsi) ∧
  (∀ c ∈ st.controls, c.description = none)

/-- The state invariant of `parse_excel`: control ids duplicate-free,
mapping pairs duplicate-free and tracked exactly by `seen_mappings`, every
mapping target has a control, and every control carries a description. -/
def excelInv (st : ExcelState) : Prop :=
  (st.controls.map Control.control_id).Nodup ∧
  (st.mappings.map (fun m => (m.source, m.target))).Nodup ∧
  (∀ p, p ∈ st.seenMappings ↔ p ∈ st.mappings.map (fun m => (m.source, m.target))) ∧
  (∀ m ∈ st.mappings, ∃ c ∈ st.controls, c.control_id = m.target) ∧
  (∀ c ∈ st.controls, c.description.isSome = true)

/-- The accumulator invariant of the `parse_csv` row loop: control ids
duplicate-free, every mapping target has a control, controls carry no
description, and no mapping side is empty or the literal `nan`. -/
def csvInv (acc : List Control × List Mapping) : Prop :=
  (acc.1.map Control.control_id).Nodup ∧
  (∀ m ∈ acc.2, ∃ c ∈ acc.1, c.control_id = m.target) ∧
  (∀ c ∈ acc.1, c.description = none) ∧
  (∀ m ∈ acc.2, m.source ≠ "" ∧ m.source ≠ "nan" ∧ m.target ≠ "" ∧ m.target ≠ "nan")

/-- The index of the last column satisfying `p`, read off the reversed
enumeration (the specification-level description of an overwrite loop). -/
def lastMatchIdx (p : String → Bool) (columns : List String) : Option Nat :=
  (columns.enum.reverse.find? (fun ic => p ic.2)).map (fun ic => ic.1)

/-- Modelled from the spec's words, for refinement comparison with
`rowScore`: the number of non-empty cells whose stripped, lower-cased text
contains at least one keyword — each cell counts at most once, however many
keywords it holds. -/
def rowScoreSpec (row : List Cell) : Nat :=
  (((row.filterMap id).map (fun s => pyLower (pyStrip s))).filter
    (fun v => headerKeywords.any (fun kw => strContains v kw))).length

/-- Modelled from the spec's words, for refinement comparison with
`find_header_row`: the same selection loop driven by the cell-counting
score. -/
def find_header_row_spec (raw : List (List Cell)) : Option Nat :=
  let best := (List.range (min 5 raw.length)).foldl
    (fun (acc : Option Nat × Nat) i =>
      let score := rowScoreSpec (raw.getD i [])
      if acc.2 < score then (some i, score) else acc)
    (none, 0)
  if 2 ≤ best.2 then best.1 else none

-- ---------------------------------------------------------------------------
-- Proof infrastructure
-- ---------------------------------------------------------------------------

/-- Bool membership agrees with Prop membership. -/
theorem contains_iff {α : Type} [BEq α] [LawfulBEq α] (l : List α) (a : α) :
    l.contains a = true ↔ a ∈ l := by
  simp [List.contains, List.elem_iff]

/-- `nodupKeys` agrees with `List.Nodup`. -/
theorem nodupKeys_iff (l : List String) : nodupKeys l = true ↔ l.Nodup := by
  induction l with
  | nil => simp [nodupKeys]
  | cons x xs ih => simp [nodupKeys, List.nodup_cons, ih, contains_iff]

/-- `nodupPairs` agrees with `List.Nodup`. -/
theorem nodupPairs_iff (l : List (String × String)) : nodupPairs l = true ↔ l.Nodup := by
  induction l with
  | nil => simp [nodupPairs]
  | cons x xs ih => simp [nodupPairs, List.nodup_cons, ih, contains_iff]

/-- A left fold keeps any property its step function keeps. -/
theorem foldl_preserve {α β : Type} (P : α → Prop) (f : α → β → α)
    (hf : ∀ s b, P s → P (f s b)) :
    ∀ (l : List β) (s : α), P s → P (l.foldl f s) := by
  intro l
  induction l with
  | nil => intro s h; exact h
  | cons b l ih => intro s h; exact ih (f s b) (hf s b h)

/-- `registeredB` is equivalent to its Prop reading. -/
theorem registeredB_iff (r : ParseResult) :
    registeredB r = true ↔ ∀ m ∈ r.mappings, ∃ c ∈ r.controls, c.control_id = m.target := by
  simp [registeredB, List.all_eq_true, List.any_eq_true]

-- ---------------------------------------------------------------------------
-- PDF strategy invariant
-- ---------------------------------------------------------------------------

/-- Appending a control while recording its id in `seen_bsi` keeps the
invariant, provided the id was unseen and the control has no description. -/
theorem pdfInv_append_control (st : PdfState) (c : Control)
    (h : pdfInv st) (hnew : c.control_id ∉ st.seenBsi) (hd : c.description = none) :
    pdfInv { st with
             seenBsi := c.control_id :: st.seenBsi,
             controls := st.controls ++ [c] } := by
  obtain ⟨h1, h2, h3, h4, h5, h6⟩ := h
  refine ⟨?_, ?_, h3, h4, ?_, ?_⟩
  · have : c.control_id ∉ st.controls.map Control.control_id := fun hm => hnew ((h2 _).mpr hm)
    simp only [List.map_append, List.map_cons, List.map_nil]
    simp [List.nodup_append, h1, this]
  · intro cid
    simp only [List.map_append, List.map_cons, List.map_nil, List.mem_append,
      List.mem_cons, List.mem_singleton, List.not_mem_nil, or_false]
    constructor
    · rintro (rfl | hm)
      · right; rfl
      · left; exact (h2 cid).mp hm
    · rintro (hm | rfl)
      · right; exact (h2 cid).mpr hm
      · left; rfl
  · intro m hm; exact List.mem_cons_of_mem _ (h5 m hm)
  · intro x hx
    rcases List.mem_append.mp hx with hx | hx
    · exact h6 x hx
    · rcases List.mem_singleton.mp hx with rfl; exact hd

/-- Appending a mapping while recording its pair in `seen_mappings` keeps
the invariant, provided the pair was unseen and the target id is seen. -/
theorem pdfInv_append_mapping (st : PdfState) (m0 : Mapping)
    (h : pdfInv st) (hnew : (m0.source, m0.target) ∉ st.seenMappings)
    (ht : m0.target ∈ st.seenBsi) :
    pdfInv { st with
             seenMappings := (m0.source, m0.target) :: st.seenMappings,
             mappings := st.mappings ++ [m0] } := by
  obtain ⟨h1, h2, h3, h4, h5, h6⟩ := h
  refine ⟨h1, h2, ?_, ?_, ?_, h6⟩
  · have : (m0.source, m0.target) ∉ st.mappings.map (fun m => (m.source, m.target)) :=
      fun hm => hnew ((h4 _).mpr hm)
    simp only [List.map_append, List.map_cons, List.map_nil]
    simp [List.nodup_append, h3, this]
  · intro p
    simp only [List.map_append, List.map_cons, List.map_nil, List.mem_append,
      List.mem_cons, List.mem_singleton, List.not_mem_nil, or_false]
    constructor
    · rintro (rfl | hm)
      · right; rfl
      · left; exact (h4 p).mp hm
    · rintro (hm | rfl)
      · right; exact (h4 p).mpr hm
      · left; rfl
  · intro m hm
    rcases List.mem_append.mp hm with hm | hm
    · exact h5 m hm
    · rcases List.mem_singleton.mp hm with rfl; exact ht

/-- `_add_bsi` keeps the invariant. -/
theorem pdfInv_add_bsi (st : PdfState) (b i t k : String) (h : pdfInv st) :
    pdfInv (add_bsi st b i t k) := by
  unfold add_bsi
  by_cases hb : b ∈ st.seenBsi
  · simp only [hb, if_true]
    by_cases hp : (i, b) ∈ st.seenMappings
    · simpa [hp] using h
    · simpa [hp] using pdfInv_append_mapping st { source := i, target := b } h hp hb
  · simp only [hb, if_false]
    have h1 := pdfInv_append_control st
      { control_id := b, title := if t = "" then "BSI " ++ b else t,
        description := none, category := if k = "" then leadingUpper b else k } h hb rfl
    by_cases hp : (i, b) ∈ st.seenMappings
    · simpa [hp] using h1
    · have hb1 : b ∈ b :: st.seenBsi := List.mem_cons_self b _
      simpa [hp] using pdfInv_append_mapping _ { source := i, target := b } h1 hp hb1

/-- `_flush_clause` keeps the invariant. -/
theorem pdfInv_flushClause (cur : Option String) (buf : List String) (st : PdfState)
    (h : pdfInv st) : pdfInv (flushClause cur buf st) := by
  unfold flushClause
  match cur with
  | none => exact h
  | some clause =>
    by_cases hb : buf.isEmpty
    · simpa [hb] using h
    · simp only [hb, if_false]
      exact foldl_preserve pdfInv _ (fun s b hs => pdfInv_add_bsi s b clause _ _ hs) _ st h

/-- The pre-seed pass keeps the invariant. -/
theorem pdfInv_preSeed (st : PdfState) (h : pdfInv st) : pdfInv (preSeed st) := by
  unfold preSeed
  refine foldl_preserve pdfInv _ (fun s ct hs => ?_) _ st h
  by_cases hc : ct.1 ∈ s.seenBsi
  · simpa [hc] using hs
  · simpa [hc] using pdfInv_append_control s
      { control_id := ct.1, title := ct.2, description := none,
        category := "BSI-Standard" } hs hc rfl

/-- The clause pass keeps the invariant. -/
theorem pdfInv_clauseLoop (lines : List String) :
    ∀ (st : PdfState) (cur : Option String) (buf : List String), pdfInv st →
      pdfInv (clauseLoop st cur buf lines) := by
  induction lines with
  | nil => intro st cur buf h; exact pdfInv_flushClause cur buf st h
  | cons line rest ih =>
    intro st cur buf h
    rw [clauseLoop]
    by_cases h0 : pyStrip line = ""
    · simpa [h0] using ih st cur buf h
    · simp only [h0, if_false]
      by_cases h1 : pyStartsWith (pyStrip line) "A." = true
      · simpa [h1] using pdfInv_flushClause cur buf st h
      · simp only [h1, Bool.false_eq_true, if_false]
        match clauseStartMatch (pyStrip line) with
        | some num =>
          exact ih _ _ _ (pdfInv_flushClause cur buf st h)
        | none =>
          by_cases h2 : cur.isSome
          · simpa [h2] using ih st cur (buf ++ [pyStrip line]) h
          · simpa [h2] using ih st cur buf h

/-- The module-emission step of the Annex pass keeps the invariant. -/
theorem pdfInv_moduleStep (st : PdfState) (m : String) (h : pdfInv st) :
    pdfInv (if ¬ strContains m ".A" ∧ m ∉ st.seenBsi then
      { st with
        seenBsi := m :: st.seenBsi,
        controls := st.controls ++
          [{ control_id := m, title := "BSI Module " ++ m, description := none,
             category := leadingUpper m }] }
    else st) := by
  split
  · rename_i hc
    exact pdfInv_append_control st
      { control_id := m, title := "BSI Module " ++ m, description := none,
        category := leadingUpper m } h hc.2 rfl
  · exact h

/-- The body scan of the section-oriented Annex pass keeps the invariant. -/
theorem pdfInv_annexBody (st : PdfState) (cur sec : String) (h : pdfInv st) :
    pdfInv (annexBody st cur sec) := by
  unfold annexBody
  refine foldl_preserve pdfInv _ (fun s b hs => pdfInv_add_bsi s b cur _ _ hs) _ _ ?_
  refine foldl_preserve pdfInv _ (fun s m hs => pdfInv_moduleStep s m hs) _ _ ?_
  exact foldl_preserve pdfInv _ (fun s b hs => pdfInv_add_bsi s b cur "" "" hs) _ st h

/-- The Annex section loop keeps the invariant. -/
theorem pdfInv_annexLoop (secs : List String) :
    ∀ (st : PdfState) (cur : Option String), pdfInv st →
      pdfInv (annexLoop st cur secs) := by
  induction secs with
  | nil => intro st cur h; simpa [annexLoop] using h
  | cons sec rest ih =>
    intro st cur h
    rw [annexLoop.eq_def]
    cases hm : stripExactAnnex (pyStrip sec) with
    | some iso => simp only [hm]; exact ih st (some iso) h
    | none =>
      simp only [hm]
      cases cur with
      | some c =>
        by_cases hs : pyStrip sec = ""
        · simpa [hs] using ih st (some c) h
        · simpa [hs] using ih (annexBody st c sec) (some c) (pdfInv_annexBody st c sec h)
      | none => exact ih st none h

/-- The line-oriented fallback pass keeps the invariant. -/
theorem pdfInv_fallbackLoop (lines : List String) :
    ∀ (st : PdfState) (cur : Option String), pdfInv st →
      pdfInv (fallbackLoop st cur lines) := by
  induction lines with
  | nil => intro st cur h; simpa [fallbackLoop] using h
  | cons line rest ih =>
    intro st cur h
    rw [fallbackLoop.eq_def]
    cases hm : isoStartMatch line with
    | some p =>
      obtain ⟨iso, g3⟩ := p
      simp only [hm]
      exact ih _ (some iso)
        (foldl_preserve pdfInv _ (fun s b hs => pdfInv_add_bsi s b iso "" "" hs) _ st h)
    | none =>
      simp only [hm]
      cases cur with
      | some c =>
        exact ih _ (some c)
          (foldl_preserve pdfInv _ (fun s b hs => pdfInv_add_bsi s b c "" "" hs) _ st h)
      | none => exact ih st none h

/-- The final state of the PDF strategy satisfies the invariant. -/
theorem pdfInv_final (fullText : String) :
    ∃ st : PdfState,
      parse_bsi_zuordnung_pdf fullText =
        { success := true, controls := st.controls, mappings := st.mappings,
          rawText := some (pyTake10000 fullText), error := none } ∧
      pdfInv st := by
  refine ⟨_, rfl, ?_⟩
  have h0 : pdfInv ⟨[], [], [], []⟩ := by
    refine ⟨List.nodup_nil, ?_, List.nodup_nil, ?_, ?_, ?_⟩ <;> simp
  exact pdfInv_fallbackLoop _ _ none
    (pdfInv_annexLoop _ _ none
      (pdfInv_clauseLoop _ _ none [] (pdfInv_preSeed _ h0)))

-- ---------------------------------------------------------------------------
-- Spreadsheet strategy invariant
-- ---------------------------------------------------------------------------

/-- The mapping-emission step of the `parse_excel` row loop keeps the
invariant together with a frozen control list containing the target id. -/
theorem excelInv_mapStep (C : List Control) (refVal : String)
    (hC : ∃ c ∈ C, c.control_id = refVal) (s : ExcelState) (isoRef : String)
    (h : excelInv s ∧ s.controls = C) :
    excelInv (if (isoRef, refVal) ∈ s.seenMappings then s
      else { s with
             seenMappings := (isoRef, refVal) :: s.seenMappings,
             mappings := s.mappings ++ [{ source := isoRef, target := refVal }] }) ∧
    (if (isoRef, refVal) ∈ s.seenMappings then s
      else { s with
             seenMappings := (isoRef, refVal) :: s.seenMappings,
             mappings := s.mappings ++ [{ source := isoRef, target := refVal }] }).controls
      = C := by
  obtain ⟨⟨h1, h2, h3, h4, h5⟩, hc⟩ := h
  by_cases hp : (isoRef, refVal) ∈ s.seenMappings
  · simpa [hp] using ⟨⟨h1, h2, h3, h4, h5⟩, hc⟩
  · simp only [hp, if_false]
    refine ⟨⟨h1, ?_, ?_, ?_, h5⟩, hc⟩
    · have : (isoRef, refVal) ∉ s.mappings.map (fun m => (m.source, m.target)) :=
        fun hm => hp ((h3 _).mpr hm)
      simp only [List.map_append, List.map_cons, List.map_nil]
      simp [List.nodup_append, h2, this]
    · intro p
      simp only [List.map_append, List.map_cons, List.map_nil, List.mem_append,
        List.mem_cons, List.mem_singleton, List.not_mem_nil, or_false]
      constructor
      · rintro (rfl | hm)
        · right; rfl
        · left; exact (h3 p).mp hm
      · rintro (hm | rfl)
        · right; exact (h3 p).mpr hm
        · left; rfl
    · intro m hm
      rcases List.mem_append.mp hm with hm | hm
      · exact h4 m hm
      · rcases List.mem_singleton.mp hm with rfl
        rw [hc]; exact hC

/-- The `parse_excel` row step keeps the invariant. -/
theorem excelInv_rowStep (docType : String) (cm : ColMap) (st : ExcelState)
    (row : List Cell) (h : excelInv st) : excelInv (excelRowStep docType cm st row) := by
  unfold excelRowStep
  by_cases h0 : safe_str row (some cm.ref) = "" ∨ safe_str row (some cm.ref) = "nan"
  · simpa [h0] using h
  · simp only [h0, if_false]
    obtain ⟨h1, h2, h3, h4, h5⟩ := h
    set refVal := safe_str row (some cm.ref) with href
    by_cases hc : st.controls.any (fun c => c.control_id = refVal) = true
    · simp only [hc, if_true]
      have hex : ∃ c ∈ st.controls, c.control_id = refVal := by
        simpa [List.any_eq_true] using hc
      have := foldl_preserve (fun s => excelInv s ∧ s.controls = st.controls) _
        (excelInv_mapStep st.controls refVal hex) (extract_iso_refs (safe_str row (some cm.iso)))
        st ⟨⟨h1, h2, h3, h4, h5⟩, rfl⟩
      exact this.1
    · simp only [hc, Bool.false_eq_true, if_false]
      have hnot : refVal ∉ st.controls.map Control.control_id := by
        intro hm
        rcases List.mem_map.mp hm with ⟨c, hcm, hcid⟩
        exact hc (by simp [List.any_eq_true]; exact ⟨c, hcm, hcid⟩)
      set newC : Control :=
        { control_id := refVal,
          title := if (match cm.title with | some t => safe_str row (some t) | none => "") = ""
            then "Control " ++ refVal
            else (match cm.title with | some t => safe_str row (some t) | none => ""),
          description := some (match cm.description with
            | some d => safe_str row (some d) | none => ""),
          category := if strContains docType "C5" ∨ (c5RefMatch refVal).isSome = true
            then (c5RefMatch refVal).getD ""
            else leadingUpper refVal } with hnewC
      have hinv1 : excelInv { st with controls := st.controls ++ [newC] } := by
        refine ⟨?_, h2, h3, ?_, ?_⟩
        · simp only [List.map_append, List.map_cons, List.map_nil]
          simp [List.nodup_append, h1, hnot]
        · intro m hm
          obtain ⟨c, hcm, hcid⟩ := h4 m hm
          exact ⟨c, List.mem_append_left _ hcm, hcid⟩
        · intro c hcm
          rcases List.mem_append.mp hcm with hcm | hcm
          · exact h5 c hcm
          · rcases List.mem_singleton.mp hcm with rfl; simp [hnewC]
      have hex : ∃ c ∈ st.controls ++ [newC], c.control_id = refVal := by
        refine ⟨newC, List.mem_append_right _ (List.mem_singleton_self _), by simp [hnewC]⟩
      have := foldl_preserve
        (fun s => excelInv s ∧ s.controls = st.controls ++ [newC]) _
        (excelInv_mapStep (st.controls ++ [newC]) refVal hex)
        (extract_iso_refs (safe_str row (some cm.iso)))
        { st with controls := st.controls ++ [newC] } ⟨hinv1, rfl⟩
      exact this.1

/-- The `parse_excel` sheet step keeps the invariant. -/
theorem excelInv_sheetStep (docType : String) (st : ExcelState) (sheet : Sheet)
    (h : excelInv st) : excelInv (excelSheetStep docType st sheet) := by
  unfold excelSheetStep
  by_cases hs : dfRawTooSmall sheet.raw = true
  · simpa [hs] using h
  · simp only [hs, Bool.false_eq_true, if_false]
    cases hh : find_header_row sheet.raw with
    | none => exact h
    | some hrow =>
      simp only []
      cases hd : detect_columns (dedupCols
          ((sheet.raw.getD hrow []).enum.map (fun ic => colNameAt ic.1 ic.2))) with
      | none => exact h
      | some cm =>
        exact foldl_preserve excelInv _
          (fun s row hs => excelInv_rowStep docType cm s row hs) _ st h

/-- The final state of the spreadsheet strategy satisfies the invariant. -/
theorem excelInv_final (sheets : List Sheet) (docType : String) :
    ∃ st : ExcelState,
      parse_excel sheets docType =
        { success := true, controls := st.controls, mappings := st.mappings,
          rawText := some ("Parsed " ++ toString sheets.length ++ " sheets, " ++
            toString st.controls.length ++ " controls, " ++
            toString st.mappings.length ++ " mappings"),
          error := none } ∧
      excelInv st := by
  refine ⟨_, rfl, ?_⟩
  have h0 : excelInv ⟨[], [], []⟩ := by
    refine ⟨List.nodup_nil, List.nodup_nil, ?_, ?_, ?_⟩ <;> simp
  exact foldl_preserve excelInv _
    (fun s sh hs => excelInv_sheetStep docType s sh hs) _ _ h0

-- ---------------------------------------------------------------------------
-- CSV strategy invariant
-- ---------------------------------------------------------------------------

/-- The `parse_csv` row step keeps the invariant. -/
theorem csvInv_rowStep (ic tc : Nat) (acc : List Control × List Mapping)
    (row : List Cell) (h : csvInv acc) : csvInv (csvRowStep ic tc acc row) := by
  unfold csvRowStep
  by_cases h0 : csvCellStr row ic ≠ "" ∧ csvCellStr row tc ≠ "" ∧
      csvCellStr row ic ≠ "nan" ∧ csvCellStr row tc ≠ "nan"
  · rw [if_pos h0]
    obtain ⟨h1, h2, h3, h4⟩ := h
    by_cases hc : acc.1.any (fun c => c.control_id = csvCellStr row tc) = true
    · rw [if_pos hc]
      have hex : ∃ c ∈ acc.1, c.control_id = csvCellStr row tc := by
        simpa [List.any_eq_true] using hc
      refine ⟨h1, ?_, h3, ?_⟩
      · intro m hm
        rcases List.mem_append.mp hm with hm | hm
        · exact h2 m hm
        · rcases List.mem_singleton.mp hm with rfl; exact hex
      · intro m hm
        rcases List.mem_append.mp hm with hm | hm
        · exact h4 m hm
        · rcases List.mem_singleton.mp hm with rfl
          exact ⟨h0.1, h0.2.2.1, h0.2.1, h0.2.2.2⟩
    · rw [if_neg hc]
      have hnot : csvCellStr row tc ∉ acc.1.map Control.control_id := by
        intro hm
        rcases List.mem_map.mp hm with ⟨c, hcm, hcid⟩
        exact hc (by simp [List.any_eq_true]; exact ⟨c, hcm, hcid⟩)
      refine ⟨?_, ?_, ?_, ?_⟩
      · simp only [List.map_append, List.map_cons, List.map_nil]
        simp [List.nodup_append, h1, hnot]
      · intro m hm
        rcases List.mem_append.mp hm with hm | hm
        · obtain ⟨c, hcm, hcid⟩ := h2 m hm
          exact ⟨c, List.mem_append_left _ hcm, hcid⟩
        · rcases List.mem_singleton.mp hm with rfl
          refine ⟨_, List.mem_append_right _ (List.mem_singleton_self _), rfl⟩
      · intro c hcm
        rcases List.mem_append.mp hcm with hcm | hcm
        · exact h3 c hcm
        · rcases List.mem_singleton.mp hcm with rfl; rfl
      · intro m hm
        rcases List.mem_append.mp hm with hm | hm
        · exact h4 m hm
        · rcases List.mem_singleton.mp hm with rfl
          exact ⟨h0.1, h0.2.2.1, h0.2.1, h0.2.2.2⟩
  · rw [if_neg h0]; exact h

/-- The final accumulator of the CSV strategy satisfies the invariant. -/
theorem csvInv_final (t : CsvTable) :
    ∃ acc : List Control × List Mapping,
      parse_csv t =
        { success := true, controls := acc.1, mappings := acc.2,
          rawText := some ("Parsed " ++ toString t.rows.length ++ " rows, columns: " ++
            csvColsRepr t.columns),
          error := none } ∧
      csvInv acc := by
  unfold parse_csv
  cases h1 : (csvDetectCols t.columns).1 with
  | none =>
    refine ⟨([], []), ?_, ?_⟩
    · simp [h1]
    · refine ⟨List.nodup_nil, ?_, ?_, ?_⟩ <;> simp
  | some ic =>
    cases h2 : (csvDetectCols t.columns).2 with
    | none =>
      refine ⟨([], []), ?_, ?_⟩
      · simp [h1, h2]
      · refine ⟨List.nodup_nil, ?_, ?_, ?_⟩ <;> simp
    | some tc =>
      refine ⟨t.rows.foldl (csvRowStep ic tc) ([], []), ?_, ?_⟩
      · simp [h1, h2]
      · have h0 : csvInv ([], []) := by
          refine ⟨List.nodup_nil, ?_, ?_, ?_⟩ <;> simp
        exact foldl_preserve csvInv _ (fun s row hs => csvInv_rowStep ic tc s row hs)
          _ _ h0

-- ---------------------------------------------------------------------------
-- Claim theorems
-- ---------------------------------------------------------------------------

/-- C1 (amended): in every extraction result of any strategy, no two
`ControlCandidate`s share a `control_id`; no two `MappingCandidate`s share an
ordered `(source, target)` pair in the PDF and spreadsheet strategies, whose
dedup sets preserve first-seen order.  The CSV strategy deduplicates
controls but appends mappings without a dedup check, so its mapping list may
repeat pairs. -/
theorem c1_dedup_amended (text docType : String) (sheets : List Sheet) (t : CsvTable) :
    nodupKeys (idsOf (parse_bsi_zuordnung_pdf text)) = true ∧
    nodupPairs (pairsOf (parse_bsi_zuordnung_pdf text)) = true ∧
    nodupKeys (idsOf (parse_excel sheets docType)) = true ∧
    nodupPairs (pairsOf (parse_excel sheets docType)) = true ∧
    nodupKeys (idsOf (parse_csv t)) = true := by
  obtain ⟨stp, heqp, h1p, h2p, h3p, h4p, h5p, h6p⟩ := pdfInv_final text
  obtain ⟨ste, heqe, h1e, h2e, h3e, h4e, h5e⟩ := excelInv_final sheets docType
  obtain ⟨accc, heqc, h1c, h2c, h3c, h4c⟩ := csvInv_final t
  refine ⟨?_, ?_, ?_, ?_, ?_⟩
  · rw [heqp]; exact (nodupKeys_iff _).mpr h1p
  · rw [heqp]; exact (nodupPairs_iff _).mpr h3p
  · rw [heqe]; exact (nodupKeys_iff _).mpr h1e
  · rw [heqe]; exact (nodupPairs_iff _).mpr h2e
  · rw [heqc]; exact (nodupKeys_iff _).mpr h1c

/-- C1 (counterexample): a CSV table whose two data rows are identical
produces the same `(source, target)` pair twice — the CSV strategy does not
suppress duplicate mappings. -/
theorem c1_csv_duplicate_mappings :
    nodupPairs (pairsOf (parse_csv ⟨["Source", "Target"],
      [[some "A.8.24", some "CRY-01"], [some "A.8.24", some "CRY-01"]]⟩)) = false := by
  decide

/-- C2 (confirmed): in every extraction result of every strategy, every
mapping's target has a control with that `control_id` in the same result
(proved for all mappings, hence in particular for the non-source-catalog
targets the claim restricts to). -/
theorem c2_registration (text docType : String) (sheets : List Sheet) (t : CsvTable) :
    registeredB (parse_bsi_zuordnung_pdf text) = true ∧
    registeredB (parse_excel sheets docType) = true ∧
    registeredB (parse_csv t) = true := by
  obtain ⟨stp, heqp, h1p, h2p, h3p, h4p, h5p, h6p⟩ := pdfInv_final text
  obtain ⟨ste, heqe, h1e, h2e, h3e, h4e, h5e⟩ := excelInv_final sheets docType
  obtain ⟨accc, heqc, h1c, h2c, h3c, h4c⟩ := csvInv_final t
  refine ⟨?_, ?_, ?_⟩
  · rw [heqp, registeredB_iff]
    intro m hm
    have := (h2p m.target).mp (h5p m hm)
    rcases List.mem_map.mp this with ⟨c, hcm, hcid⟩
    exact ⟨c, hcm, hcid⟩
  · rw [heqe, registeredB_iff]
    intro m hm
    exact h4e m hm
  · rw [heqc, registeredB_iff]
    intro m hm
    exact h2c m hm

/-- C3 (amended): every control of the spreadsheet strategy carries all four
fields, `description` included; the PDF and CSV strategies build their
control records without a `description` field (only `control_id`, `title`,
`category`). -/
theorem c3_description_amended (text docType : String) (sheets : List Sheet)
    (t : CsvTable) :
    (parse_excel sheets docType).controls.all (fun c => c.description.isSome) = true ∧
    (parse_bsi_zuordnung_pdf text).controls.all (fun c => c.description.isNone) = true ∧
    (parse_csv t).controls.all (fun c => c.description.isNone) = true := by
  obtain ⟨stp, heqp, h1p, h2p, h3p, h4p, h5p, h6p⟩ := pdfInv_final text
  obtain ⟨ste, heqe, h1e, h2e, h3e, h4e, h5e⟩ := excelInv_final sheets docType
  obtain ⟨accc, heqc, h1c, h2c, h3c, h4c⟩ := csvInv_final t
  refine ⟨?_, ?_, ?_⟩
  · rw [heqe]
    simp only [List.all_eq_true]
    exact fun c hc => h5e c hc
  · rw [heqp]
    simp only [List.all_eq_true]
    intro c hc
    simp [h6p c hc, Option.isNone]
  · rw [heqc]
    simp only [List.all_eq_true]
    intro c hc
    simp [h3c c hc, Option.isNone]

/-- C3 (counterexample): the single control the CSV strategy emits for the
row `("A.8.24", "CRY-01")` has no `description` field. -/
theorem c3_missing_description :
    (parse_csv ⟨["Source", "Target"], [[some "A.8.24", some "CRY-01"]]⟩).controls.all
      (fun c => c.description.isSome) = false := by
  decide

/-- C4 (code bug, evaluated at the failing input): on the Annex text
`"A.5.1 Policy\nISMS.1.A3 blah"`, whose only identifier occurrence is the
requirement `ISMS.1.A3`, the PDF strategy emits — besides the five pre-seeded
standards, the requirement control, and its mapping — an extra module-only
control `ISMS.1` recovered from the text span of the requirement identifier
alone: the module pattern matches the prefix `ISMS.1` inside `ISMS.1.A3`,
and the exclusion guard `".A" not in bsi_mod` can never fire because a
module match never contains `.A`. -/
theorem c4_module_double_count :
    (parse_bsi_zuordnung_pdf "A.5.1 Policy\nISMS.1.A3 blah").controls.map
        Control.control_id =
      ["BSI-Std-200-1", "BSI-Std-200-2", "BSI-Std-200-3", "BSI-Std-200-4",
       "BSI-ElemGef", "ISMS.1.A3", "ISMS.1"] ∧
    (parse_bsi_zuordnung_pdf "A.5.1 Policy\nISMS.1.A3 blah").mappings =
      [{ source := "A.5.1", target := "ISMS.1.A3" }] := by
  constructor
  · decide
  · decide

/-- C5 (amended): in the spreadsheet strategy a cross-reference cell whose
stripped text is `"-"`, `"n/a"`, `"nan"`, or empty yields no references and
hence no mapping; in the CSV strategy only empty and literal-`"nan"` cells
are guarded in code (with `"n/a"`/`"nan"` also removed earlier by the CSV
reader's NA conversion), so no emitted mapping carries an empty or `"nan"`
side — but a literal `"-"` cell is not guarded there. -/
theorem c5_sentinel_amended :
    (∀ raw : String,
      (pyStrip raw = "-" ∨ pyStrip raw = "n/a" ∨ pyStrip raw = "nan" ∨ pyStrip raw = "") →
      extract_iso_refs raw = []) ∧
    (∀ t : CsvTable, (parse_csv t).mappings.all
      (fun m => m.source != "" && m.source != "nan" &&
        m.target != "" && m.target != "nan") = true) := by
  constructor
  · intro raw h
    unfold extract_iso_refs
    rw [if_pos (Or.inr h)]
  · intro t
    obtain ⟨accc, heqc, h1c, h2c, h3c, h4c⟩ := csvInv_final t
    rw [heqc]
    simp only [List.all_eq_true, Bool.and_eq_true, bne_iff_ne]
    intro m hm
    obtain ⟨hs1, hs2, ht1, ht2⟩ := h4c m hm
    exact ⟨⟨⟨hs1, hs2⟩, ht1⟩, ht2⟩

/-- Witness for C5 (amended): the guard fires on a concrete padded dash
cell, and a concrete CSV run has only well-formed mapping sides. -/
theorem c5_sentinel_witness :
    extract_iso_refs " - " = [] ∧
    (parse_csv ⟨["Source", "Target"], [[some "A.5.1", some "OPS-11"]]⟩).mappings.all
      (fun m => m.source != "" && m.source != "nan" &&
        m.target != "" && m.target != "nan") = true := by
  exact ⟨c5_sentinel_amended.1 " - " (Or.inl (by decide)),
    c5_sentinel_amended.2 ⟨["Source", "Target"], [[some "A.5.1", some "OPS-11"]]⟩⟩

/-- C5 (counterexample): a CSV row whose source cell is the literal `"-"`
does produce a mapping — the CSV strategy checks only for empty and
`"nan"`. -/
theorem c5_dash_produces_mapping :
    (parse_csv ⟨["Source", "Target"], [[some "-", some "X-01"]]⟩).mappings =
      [{ source := "-", target := "X-01" }] := by
  decide

-- ---------------------------------------------------------------------------
-- C6: CSV column-role inference
-- ---------------------------------------------------------------------------

/-- `Option.map` distributes over `Option.or`. -/
theorem option_map_or {α β : Type} (f : α → β) (o o' : Option α) :
    (o.or o').map f = (o.map f).or (o'.map f) := by
  cases o <;> simp [Option.or]

/-- The `parse_csv` column loop computes, for each role, the last matching
column over the processed prefix (target matches only count when the source
keywords miss, mirroring the `elif`). -/
theorem csvDetect_go (l : List (Nat × String)) :
    ∀ a b : Option Nat,
      l.foldl
        (fun (acc : Option Nat × Option Nat) ic =>
          if csvSourceKeyword ic.2 then (some ic.1, acc.2)
          else if csvTargetKeyword ic.2 then (acc.1, some ic.1)
          else acc)
        (a, b) =
      (((l.reverse.find? (fun ic => csvSourceKeyword ic.2)).map (fun ic => ic.1)).or a,
       ((l.reverse.find? (fun ic =>
          !csvSourceKeyword ic.2 && csvTargetKeyword ic.2)).map (fun ic => ic.1)).or b) := by
  induction l with
  | nil => intro a b; simp [Option.or]
  | cons ic l ih =>
    intro a b
    rw [List.foldl_cons, List.reverse_cons, List.find?_append, List.find?_append,
      option_map_or, option_map_or]
    by_cases hs : csvSourceKeyword ic.2 = true
    · rw [if_pos hs, ih]
      have ht : (!csvSourceKeyword ic.2 && csvTargetKeyword ic.2) = false := by
        simp [hs]
      simp [List.find?, hs, ht, Option.or_assoc]
    · rw [if_neg (by simp [hs])]
      by_cases htg : csvTargetKeyword ic.2 = true
      · rw [if_pos htg, ih]
        have ht : (!csvSourceKeyword ic.2 && csvTargetKeyword ic.2) = true := by
          simp [hs, htg]
        simp [List.find?, hs, ht, htg, Option.or_assoc]
      · rw [if_neg (by simp [htg]), ih]
        have htg' : csvTargetKeyword ic.2 = false := by simpa using htg
        have ht : (!csvSourceKeyword ic.2 && csvTargetKeyword ic.2) = false := by
          simp [htg']
        simp [List.find?, hs, ht, htg']

/-- C6 (amended): in the CSV strategy's column-role inference, the **last**
matching column wins for each role: the source column is the last column
whose upper-cased name contains `"ISO"`, `"27001"`, or `"SOURCE"`, and the
target column is the last column matching `"BSI"`, `"C5"`, or `"TARGET"`
without matching a source keyword (the source branch shadows the target
branch via `elif`). -/
theorem c6_last_column_wins (columns : List String) :
    csvDetectCols columns =
      (lastMatchIdx csvSourceKeyword columns,
       lastMatchIdx (fun c => !csvSourceKeyword c && csvTargetKeyword c) columns) := by
  unfold csvDetectCols lastMatchIdx
  rw [csvDetect_go]
  simp

/-- C6 (counterexample): with two source-keyword columns, the strategy reads
the source value from the **second** one (index 1), not the first: the row
`("X", "Y", "Z")` yields the mapping `("Y", "Z")`, while first-match-wins
inference would yield `("X", "Z")`. -/
theorem c6_second_source_column_used :
    csvDetectCols ["SOURCE A", "SOURCE B", "TARGET"] = (some 1, some 2) ∧
    (parse_csv ⟨["SOURCE A", "SOURCE B", "TARGET"],
      [[some "X", some "Y", some "Z"]]⟩).mappings =
      [{ source := "Y", target := "Z" }] := by
  constructor
  · decide
  · decide

-- ---------------------------------------------------------------------------
-- C7: header-row discovery
-- ---------------------------------------------------------------------------

/-- The header scan over the first `n` rows keeps, as its accumulator, the
first row attaining the maximal (cell, keyword)-pair score, with score 0
represented by an empty accumulator. -/
theorem headerScan_chars (raw : List (List Cell)) (n : Nat) :
    match ((List.range n).foldl (headerScanStep raw) (none, 0)).1 with
    | none => ((List.range n).foldl (headerScanStep raw) (none, 0)).2 = 0 ∧
        ∀ j < n, rowScore (raw.getD j []) = 0
    | some h => h < n ∧
        ((List.range n).foldl (headerScanStep raw) (none, 0)).2 = rowScore (raw.getD h []) ∧
        0 < rowScore (raw.getD h []) ∧
        ∀ j < n, rowScore (raw.getD j []) ≤ rowScore (raw.getD h []) ∧
          (j < h → rowScore (raw.getD j []) < rowScore (raw.getD h [])) := by
  induction n with
  | zero => simp [List.range_zero]
  | succ n ih =>
    rw [List.range_succ, List.foldl_append, List.foldl_cons, List.foldl_nil]
    rcases hA : (List.range n).foldl (headerScanStep raw) (none, 0) with ⟨o, s⟩
    rw [hA] at ih
    unfold headerScanStep
    by_cases hlt : s < rowScore (raw.getD n [])
    · rw [if_pos hlt]
      simp only []
      cases o with
      | none =>
        obtain ⟨hs0, hall⟩ := ih
        refine ⟨Nat.lt_succ_self n, by trivial, by omega, ?_⟩
        intro j hj
        rcases Nat.lt_succ_iff_lt_or_eq.mp hj with hj | rfl
        · have := hall j hj
          exact ⟨by omega, fun _ => by omega⟩
        · exact ⟨le_refl _, fun h => absurd h (lt_irrefl _)⟩
      | some h =>
        obtain ⟨hh, hs, hpos, hall⟩ := ih
        refine ⟨Nat.lt_succ_self n, by trivial, by omega, ?_⟩
        intro j hj
        rcases Nat.lt_succ_iff_lt_or_eq.mp hj with hj | rfl
        · have := hall j hj
          exact ⟨by omega, fun _ => by omega⟩
        · exact ⟨le_refl _, fun h => absurd h (lt_irrefl _)⟩
    · rw [if_neg hlt]
      simp only []
      cases o with
      | none =>
        obtain ⟨hs0, hall⟩ := ih
        refine ⟨hs0, ?_⟩
        intro j hj
        rcases Nat.lt_succ_iff_lt_or_eq.mp hj with hj | rfl
        · exact hall j hj
        · omega
      | some h =>
        obtain ⟨hh, hs, hpos, hall⟩ := ih
        refine ⟨Nat.lt_succ_of_lt hh, hs, hpos, ?_⟩
        intro j hj
        rcases Nat.lt_succ_iff_lt_or_eq.mp hj with hj | rfl
        · exact hall j hj
        · exact ⟨by omega, fun hjh => by omega⟩

/-- C7 (amended): `_find_header_row` scores each of the first
`min 5 (row count)` rows by the number of (cell, keyword) **pairs** — a cell
containing two keywords counts twice — picks the earliest row attaining the
maximal score, answers only when that score is at least 2, and a sheet whose
scan answers nothing is skipped entirely, contributing no controls and no
mappings. -/
theorem c7_scoring_amended (raw : List (List Cell)) :
    (find_header_row raw = none →
      ∀ i < min 5 raw.length, rowScore (raw.getD i []) < 2) ∧
    (∀ h, find_header_row raw = some h →
      h < min 5 raw.length ∧ 2 ≤ rowScore (raw.getD h []) ∧
      ∀ j < min 5 raw.length,
        rowScore (raw.getD j []) ≤ rowScore (raw.getD h []) ∧
        (j < h → rowScore (raw.getD j []) < rowScore (raw.getD h []))) ∧
    (∀ (docType : String) (st : ExcelState) (name : String),
      find_header_row raw = none →
      excelSheetStep docType st ⟨name, raw⟩ = st) := by
  have hc := headerScan_chars raw (min 5 raw.length)
  refine ⟨?_, ?_, ?_⟩
  · intro hnone i hi
    unfold find_header_row at hnone
    rcases hA : (List.range (min 5 raw.length)).foldl (headerScanStep raw) (none, 0)
      with ⟨o, s⟩
    rw [hA] at hc hnone
    cases o with
    | none =>
      obtain ⟨hs0, hall⟩ := hc
      have := hall i hi
      simp only [] at hs0
      omega
    | some h =>
      obtain ⟨hh, hs, hpos, hall⟩ := hc
      by_cases h2 : 2 ≤ s
      · simp [h2] at hnone
      · have := (hall i hi).1
        simp only [] at hs
        omega
  · intro h hsome
    unfold find_header_row at hsome
    rcases hA : (List.range (min 5 raw.length)).foldl (headerScanStep raw) (none, 0)
      with ⟨o, s⟩
    rw [hA] at hc hsome
    by_cases h2 : 2 ≤ s
    · rw [if_pos h2] at hsome
      cases o with
      | none => exact absurd hsome (by simp)
      | some h' =>
        obtain ⟨hh, hs, hpos, hall⟩ := hc
        simp only [] at hs hsome
        rcases Option.some_inj.mp hsome with rfl
        refine ⟨hh, by omega, ?_⟩
        exact fun j hj => hall j hj
    · rw [if_neg h2] at hsome
      exact absurd hsome (by simp)
  · intro docType st name hnone
    unfold excelSheetStep
    by_cases hsm : dfRawTooSmall raw = true
    · simp [hsm]
    · simp [hsm, hnone]

/-- Witness for C7 (amended): a concrete 3-row grid whose first row holds
`"Ref"` and `"Title"` is selected with score 2, and a concrete sheet whose
scan answers nothing passes through the sheet step unchanged. -/
theorem c7_scoring_witness :
    (0 < min 5 (3 : Nat) ∧
      2 ≤ rowScore [some "Ref", some "Title"]) ∧
    excelSheetStep "doc" ⟨[], [], []⟩ ⟨"map", [[some "x"], [some "y"], [some "z"]]⟩ =
      ⟨[], [], []⟩ := by
  constructor
  · have h := (c7_scoring_amended
      [[some "Ref", some "Title"], [some "x"], [some "y"]]).2.1 0 (by decide)
    exact ⟨h.1, h.2.1⟩
  · exact (c7_scoring_amended [[some "x"], [some "y"], [some "z"]]).2.2 "doc"
      ⟨[], [], []⟩ "map" (by decide)

/-- C7 (counterexample): a sheet whose only keyword-bearing cell holds two
keywords (`"criteria description"`).  The code's pair-counting scorer gives
the row score 2 and accepts it as header — the whole sheet is then processed
and emits controls — whereas the claim's cell-counting scorer gives score 1
and would skip the sheet. -/
theorem c7_pair_counting_counterexample :
    find_header_row
      [[some "criteria description", some "A", some "B", some "C"],
       [some "CRY-01", some "T", some "D", some "A.5.1"],
       [some "CRY-02", some "T2", some "D2", some "A.5.2"]] = some 0 ∧
    find_header_row_spec
      [[some "criteria description", some "A", some "B", some "C"],
       [some "CRY-01", some "T", some "D", some "A.5.1"],
       [some "CRY-02", some "T2", some "D2", some "A.5.2"]] = none ∧
    (parse_excel [⟨"map",
      [[some "criteria description", some "A", some "B", some "C"],
       [some "CRY-01", some "T", some "D", some "A.5.1"],
       [some "CRY-02", some "T2", some "D2", some "A.5.2"]]⟩] "C5").controls ≠ [] := by
  refine ⟨by decide, by decide, by decide⟩

-- ---------------------------------------------------------------------------
-- C8, C9, C10
-- ---------------------------------------------------------------------------

/-- C8 (confirmed): the dispatcher is a total function — it never raises —
and (a) a filename whose lower-cased form ends in none of `.pdf`, `.xlsx`,
`.xls`, `.csv` yields the immediate failure result naming the rejected
input, while (b) an exception raised by the selected strategy is caught and
converted to `{success: false, error: <message>, raw_text: ""}`. -/
theorem c8_dispatcher_never_raises (filename : String) (p x c : StrategyRun) :
    (pyEndsWith (pyLower filename) ".pdf" = false →
     pyEndsWith (pyLower filename) ".xlsx" = false →
     pyEndsWith (pyLower filename) ".xls" = false →
     pyEndsWith (pyLower filename) ".csv" = false →
      parse_uploaded_bytes filename p x c =
        { success := false, controls := [], mappings := [], rawText := none,
          error := some ("Unsupported file type: " ++ pyLower filename) }) ∧
    (∀ e : String,
      (pyEndsWith (pyLower filename) ".pdf" = true → p = Except.error e →
        parse_uploaded_bytes filename p x c =
          { success := false, controls := [], mappings := [], rawText := some "",
            error := some e }) ∧
      (pyEndsWith (pyLower filename) ".pdf" = false →
       (pyEndsWith (pyLower filename) ".xlsx" = true ∨
        pyEndsWith (pyLower filename) ".xls" = true) → x = Except.error e →
        parse_uploaded_bytes filename p x c =
          { success := false, controls := [], mappings := [], rawText := some "",
            error := some e }) ∧
      (pyEndsWith (pyLower filename) ".pdf" = false →
       pyEndsWith (pyLower filename) ".xlsx" = false →
       pyEndsWith (pyLower filename) ".xls" = false →
       pyEndsWith (pyLower filename) ".csv" = true → c = Except.error e →
        parse_uploaded_bytes filename p x c =
          { success := false, controls := [], mappings := [], rawText := some "",
            error := some e })) := by
  refine ⟨?_, fun e => ⟨?_, ?_, ?_⟩⟩
  · intro h1 h2 h3 h4
    unfold parse_uploaded_bytes
    simp [h1, h2, h3, h4]
  · intro h1 he
    unfold parse_uploaded_bytes
    simp [h1, he]
  · intro h1 h2 he
    unfold parse_uploaded_bytes
    rcases h2 with h2 | h2 <;> simp [h1, h2, he]
  · intro h1 h2 h3 h4 he
    unfold parse_uploaded_bytes
    simp [h1, h2, h3, h4, he]

/-- Witness for C8: the dispatcher at a `.txt` filename gives the
unsupported-type failure, and a raising PDF strategy at an upper-case
`.PDF` filename is wrapped into the failure result. -/
theorem c8_dispatcher_witness :
    parse_uploaded_bytes "notes.txt" (Except.error "boom") (Except.error "boom")
        (Except.error "boom") =
      { success := false, controls := [], mappings := [], rawText := none,
        error := some ("Unsupported file type: " ++ pyLower "notes.txt") } ∧
    parse_uploaded_bytes "Scan.PDF" (Except.error "bad pdf") (Except.ok
        { success := true, controls := [], mappings := [], rawText := none,
          error := none }) (Except.error "zzz") =
      { success := false, controls := [], mappings := [], rawText := some "",
        error := some "bad pdf" } := by
  constructor
  · exact (c8_dispatcher_never_raises "notes.txt" (Except.error "boom")
      (Except.error "boom") (Except.error "boom")).1
      (by decide) (by decide) (by decide) (by decide)
  · exact ((c8_dispatcher_never_raises "Scan.PDF" (Except.error "bad pdf")
      (Except.ok { success := true, controls := [], mappings := [],
                   rawText := none, error := none })
      (Except.error "zzz")).2 "bad pdf").1 (by decide) rfl

/-- C9 (confirmed): any line whose stripped text starts with the two
characters `A.` terminates the clause pass — the pending clause is flushed
and the remaining lines (`rest`) are never examined — whether or not the
line contains a full `A.<major>.<minor>` identifier. -/
theorem c9_clause_pass_break (st : PdfState) (cur : Option String)
    (buf : List String) (line : String) (rest : List String)
    (h : pyStartsWith (pyStrip line) "A." = true) :
    clauseLoop st cur buf (line :: rest) = flushClause cur buf st := by
  have hne : pyStrip line ≠ "" := by
    intro he
    rw [he] at h
    exact absurd h (by decide)
  rw [clauseLoop]
  simp [hne, h]

/-- Witness for C9: a line starting with `A.` but holding no
`A.<major>.<minor>` identifier stops the clause pass before a line that
would otherwise produce a clause mapping. -/
theorem c9_clause_pass_break_witness :
    clauseLoop ⟨[], [], [], []⟩ none []
        ["  A. not an annex id", "6.2 Objectives BSI-Standard 200-2"] =
      flushClause none [] ⟨[], [], [], []⟩ := by
  exact c9_clause_pass_break ⟨[], [], [], []⟩ none [] "  A. not an annex id"
    ["6.2 Objectives BSI-Standard 200-2"] (by decide)

/-- C10 (confirmed): the spreadsheet strategy skips every sheet whose raw
grid is empty or has fewer than 3 rows — the sheet step returns its state
unchanged, contributing no controls and no mappings, whatever the sheet
holds. -/
theorem c10_short_sheet_skipped (docType : String) (st : ExcelState) (sheet : Sheet)
    (h : dfRawTooSmall sheet.raw = true) :
    excelSheetStep docType st sheet = st := by
  unfold excelSheetStep
  simp [h]

/-- Witness for C10: a 2-row sheet whose first row scores 2 keyword matches
(`"Ref"`, `"Title"`) — a header `_find_header_row` would accept — is still
skipped. -/
theorem c10_short_sheet_witness :
    excelSheetStep "C5" ⟨[], [], []⟩
        ⟨"map", [[some "Ref", some "Title"], [some "C-01", some "T"]]⟩ =
      ⟨[], [], []⟩ ∧
    find_header_row [[some "Ref", some "Title"], [some "C-01", some "T"]] = some 0 := by
  constructor
  · exact c10_short_sheet_skipped "C5" ⟨[], [], []⟩
      ⟨"map", [[some "Ref", some "Title"], [some "C-01", some "T"]]⟩ (by decide)
  · decide
